import Mathlib

/-!
Verification of the retrieval-and-scheduling core of the luogu-saver backend.

The development shallowly embeds the relevant functions of
`src/services/CrawlerService.ts`, `src/services/MemoryTaskQueue` (the
in-memory task scheduler) and `src/models/Task.ts` as executable Lean
definitions, and proves or refutes the specification's claims about them.
JavaScript strings are modelled as lists of UTF-16 code units, stateful
loops as explicit step relations, and HTTP traffic as explicit response
values fed to the embedded control flow.
-/

namespace LuoguSaver

/-- A JavaScript string, viewed as its sequence of UTF-16 code units
(the values returned by `String.prototype.charCodeAt`). -/
abbrev JsString := List Nat

/-- The per-unit test `(truncated.charCodeAt(len - 1) & 0xC0) === 0x80` used by
`CrawlerService.truncateUtf8`'s trailing loop.  It is the UTF-8
continuation-byte pattern, applied here to a UTF-16 code unit. -/
def contByteCheck (c : Nat) : Bool := c &&& 0xC0 == 0x80

/-- Embedding of `CrawlerService.truncateUtf8(text, maxLength = 100000)`:
if the string is falsy (empty) or already within the limit it is returned
unchanged; otherwise it is cut to `maxLength` units with `substring` and
trailing units matching `contByteCheck` are removed one by one. -/
def truncateUtf8 (text : JsString) (maxLength : Nat) : JsString :=
  if text = [] ∨ text.length ≤ maxLength then text
  else ((text.take maxLength).reverse.dropWhile contByteCheck).reverse

/-- A UTF-16 code unit in the high-surrogate range `0xD800`–`0xDBFF`. -/
def isHighSurrogate (c : Nat) : Bool := decide (0xD800 ≤ c ∧ c ≤ 0xDBFF)

/-- A UTF-16 code unit in the low-surrogate range `0xDC00`–`0xDFFF`. -/
def isLowSurrogate (c : Nat) : Bool := decide (0xDC00 ≤ c ∧ c ≤ 0xDFFF)

/-- Well-formed UTF-16: every high surrogate is immediately followed by a low
surrogate and no low surrogate appears unpaired.  Exactly the well-formed
UTF-16 sequences have a valid UTF-8 encoding; a lone surrogate cannot be
encoded as valid UTF-8. -/
def wellFormedUtf16 : JsString → Bool
  | [] => true
  | c :: rest =>
    if isHighSurrogate c then
      match rest with
      | c2 :: rest2 => isLowSurrogate c2 && wellFormedUtf16 rest2
      | [] => false
    else if isLowSurrogate c then false
    else wellFormedUtf16 rest

/-- Every list decomposes as some dropped front part followed by its
`dropWhile` residue. -/
theorem dropWhile_decomp {α : Type} (p : α → Bool) (l : List α) :
    ∃ s, l = s ++ l.dropWhile p := by
  induction l with
  | nil => exact ⟨[], rfl⟩
  | cons a l ih =>
    by_cases h : p a
    · obtain ⟨s, hs⟩ := ih
      refine ⟨a :: s, ?_⟩
      simp [List.dropWhile, h]
      exact hs
    · exact ⟨[], by simp [List.dropWhile, h]⟩

/-- The result of `truncateUtf8` never has more units than the limit, unless
the input was already within the limit (in which case it is returned whole). -/
theorem truncateUtf8_length_le (text : JsString) (maxLength : Nat)
    (h : ¬ (text = [] ∨ text.length ≤ maxLength)) :
    (truncateUtf8 text maxLength).length ≤ maxLength := by
  rw [truncateUtf8, if_neg h]
  obtain ⟨s, hs⟩ := dropWhile_decomp contByteCheck (text.take maxLength).reverse
  have hlen : ((text.take maxLength).reverse.dropWhile contByteCheck).length
      ≤ (text.take maxLength).reverse.length := by
    conv_rhs => rw [hs]
    simp
  simpa using le_trans hlen (by simp)

/-- Claim C1 (code bug evidence): `truncateUtf8` cuts inside a surrogate pair.
On the string "😀" (UTF-16 units `0xD83D 0xDE00`, a well-formed input) with
limit 1, the code returns the lone high surrogate `0xD83D`: the continuation
check `(c & 0xC0) === 0x80` is a UTF-8 byte-level test that no surrogate unit
satisfies (`0xD83D & 0xC0 = 0`), so the loop never strips it, and the result
has no valid UTF-8 encoding — contradicting the function's own stated purpose
of a UTF-8-safe cut. -/
theorem c1_truncateUtf8_splits_surrogate_pair :
    wellFormedUtf16 [0xD83D, 0xDE00] = true ∧
    truncateUtf8 [0xD83D, 0xDE00] 1 = [0xD83D] ∧
    wellFormedUtf16 (truncateUtf8 [0xD83D, 0xDE00] 1) = false := by
  refine ⟨by decide, ?_, ?_⟩ <;> decide

/-- Claim C10: `truncateUtf8 text maxLength` always returns a leading segment
of `text` (some `rest` completes it to `text`); whenever `text` is within the
limit or empty it is returned entirely unchanged; and the function is
idempotent at the same limit. -/
theorem c10_truncateUtf8_front_identity_idempotent
    (text : JsString) (maxLength : Nat) :
    (∃ rest, truncateUtf8 text maxLength ++ rest = text) ∧
    (text.length ≤ maxLength ∨ text = [] → truncateUtf8 text maxLength = text) ∧
    truncateUtf8 (truncateUtf8 text maxLength) maxLength
      = truncateUtf8 text maxLength := by
  by_cases h : text = [] ∨ text.length ≤ maxLength
  · have hid : truncateUtf8 text maxLength = text := by rw [truncateUtf8, if_pos h]
    refine ⟨⟨[], by simp [hid]⟩, fun _ => hid, ?_⟩
    rw [hid, hid]
  · have hres : truncateUtf8 text maxLength
        = ((text.take maxLength).reverse.dropWhile contByteCheck).reverse := by
      rw [truncateUtf8, if_neg h]
    obtain ⟨s, hs⟩ := dropWhile_decomp contByteCheck (text.take maxLength).reverse
    have htake : text.take maxLength = truncateUtf8 text maxLength ++ s.reverse := by
      have := congrArg List.reverse hs
      simp at this
      rw [hres]
      exact this
    refine ⟨⟨s.reverse ++ text.drop maxLength, ?_⟩, ?_, ?_⟩
    · rw [← List.append_assoc, ← htake, List.take_append_drop]
    · intro hle
      exact absurd (Or.symm hle) h
    · have hlen := truncateUtf8_length_le text maxLength h
      show truncateUtf8 (truncateUtf8 text maxLength) maxLength
        = truncateUtf8 text maxLength
      rw [truncateUtf8]
      exact if_pos (Or.inr hlen)

/-- Witness for C10 at a concrete input: "ab" with limit 5 is within the
limit and returned unchanged. -/
theorem c10_witness : truncateUtf8 [97, 98] 5 = [97, 98] :=
  (c10_truncateUtf8_front_identity_idempotent [97, 98] 5).2.1 (Or.inl (by decide))

/-- Job status values of the in-memory scheduler's `TaskJob` record. -/
inductive JStatus
  | pending
  | processing
  | completed
  | failed
  | cancelled
deriving DecidableEq, Repr

/-- The scheduler's in-memory job record (`TaskJob` in the source).  The
`payload` field is kept as its `JSON.stringify` image, which is exactly the
representation the queue's dedup check compares. -/
structure TaskJob where
  id : String
  jobType : String
  payload : String
  status : JStatus
  progress : Nat
  attempts : Nat
  maxAttempts : Nat
deriving DecidableEq, Repr

/-- Insertion into a JavaScript `Set`, modelled on a duplicate-free list. -/
def setInsert (s : List String) (x : String) : List String :=
  if x ∈ s then s else x :: s

/-- State of `MemoryTaskQueue` relevant to dispatching: the pending queue,
the in-flight `processing` set (job ids) and the configured concurrency. -/
structure QueueState where
  queue : List TaskJob
  processing : List String
  concurrency : Nat

/-- One observable transition of the scheduler.  `dispatch` and `dropStale`
are the two outcomes of a `processQueue` loop iteration that shifts the queue
(both only fire when `processing.size < concurrency` and the queue is
non-empty, mirroring the guard in `processQueue`); `finish` is the
`finally`-block removal from `processing` when `processJob` ends; `submit` is
`addTask`'s push to the back; `retryFront` is the retry `unshift` to the
front; `cancelRemove` is `cancelTask`'s splice. -/
inductive QueueStep : QueueState → QueueState → Prop
  | dispatch (s : QueueState) (j : TaskJob) (rest : List TaskJob) :
      s.processing.length < s.concurrency →
      s.queue = j :: rest →
      j.status = JStatus.pending →
      QueueStep s ⟨rest, setInsert s.processing j.id, s.concurrency⟩
  | dropStale (s : QueueState) (j : TaskJob) (rest : List TaskJob) :
      s.processing.length < s.concurrency →
      s.queue = j :: rest →
      j.status ≠ JStatus.pending →
      QueueStep s ⟨rest, s.processing, s.concurrency⟩
  | finish (s : QueueState) (jid : String) :
      jid ∈ s.processing →
      QueueStep s ⟨s.queue, s.processing.erase jid, s.concurrency⟩
  | submit (s : QueueState) (j : TaskJob) :
      QueueStep s ⟨s.queue ++ [j], s.processing, s.concurrency⟩
  | retryFront (s : QueueState) (j : TaskJob) :
      QueueStep s ⟨j :: s.queue, s.processing, s.concurrency⟩
  | cancelRemove (s : QueueState) (q1 q2 : List TaskJob) (j : TaskJob) :
      s.queue = q1 ++ j :: q2 →
      QueueStep s ⟨q1 ++ q2, s.processing, s.concurrency⟩

/-- The scheduler's start state: empty in-flight set, a given concurrency. -/
def initQueueState (concurrency : Nat) : QueueState :=
  ⟨[], [], concurrency⟩

theorem setInsert_length_le (s : List String) (x : String) :
    (setInsert s x).length ≤ s.length + 1 := by
  unfold setInsert
  split <;> simp

/-- Each scheduler step keeps the concurrency field and preserves the bound
on the in-flight set. -/
theorem queueStep_preserves (s s' : QueueState) (h : QueueStep s s') :
    s'.concurrency = s.concurrency ∧
    (s.processing.length ≤ s.concurrency →
      s'.processing.length ≤ s'.concurrency) := by
  cases h with
  | dispatch j rest hlt hq hst =>
    refine ⟨rfl, fun _ => ?_⟩
    exact le_trans (setInsert_length_le s.processing j.id) hlt
  | dropStale j rest hlt hq hst => exact ⟨rfl, fun hb => hb⟩
  | finish jid hmem =>
    refine ⟨rfl, fun hb => le_trans ?_ hb⟩
    exact List.Sublist.length_le (List.erase_sublist jid s.processing)
  | submit j => exact ⟨rfl, fun hb => hb⟩
  | retryFront j => exact ⟨rfl, fun hb => hb⟩
  | cancelRemove q1 q2 j hq => exact ⟨rfl, fun hb => hb⟩

/-- Claim C2: in every state the scheduler can reach from start, the
in-flight `processing` set holds at most `concurrency` jobs; moreover the
only step that grows the in-flight set (dispatching a pending job) fires
only when the set is strictly below `concurrency`. -/
theorem c2_concurrency_bound :
    (∀ (c : Nat) (s : QueueState),
        Relation.ReflTransGen QueueStep (initQueueState c) s →
        s.processing.length ≤ s.concurrency) ∧
    (∀ s s' : QueueState, QueueStep s s' →
        s.processing.length < s'.processing.length →
        s.processing.length < s.concurrency) := by
  constructor
  · intro c s h
    induction h with
    | refl => simp [initQueueState]
    | tail hreach hstep ih =>
      exact (queueStep_preserves _ _ hstep).2 ih
  · intro s s' hstep hgrow
    cases hstep with
    | dispatch j rest hlt hq hst => exact hlt
    | dropStale j rest hlt hq hst => exact absurd hgrow (by simp)
    | finish jid hmem =>
      have := List.Sublist.length_le (List.erase_sublist jid s.processing)
      exact absurd hgrow (by simp; exact this)
    | submit j => exact absurd hgrow (by simp)
    | retryFront j => exact absurd hgrow (by simp)
    | cancelRemove q1 q2 j hq => exact absurd hgrow (by simp)

/-- A concrete pending job used by the scheduler witnesses. -/
def exJob : TaskJob :=
  ⟨"task_1", "article_save", "p1", JStatus.pending, 0, 0, 3⟩

/-- Witness for C2: from an empty scheduler with concurrency 1, submitting
`exJob` and dispatching it reaches a state whose in-flight set is within the
bound. -/
theorem c2_witness :
    (QueueState.mk [] ["task_1"] 1).processing.length ≤
      (QueueState.mk [] ["task_1"] 1).concurrency :=
  c2_concurrency_bound.1 1 ⟨[], ["task_1"], 1⟩
    (Relation.ReflTransGen.tail
      (Relation.ReflTransGen.single (QueueStep.submit (initQueueState 1) exJob))
      (QueueStep.dispatch ⟨[exJob], [], 1⟩ exJob [] (by decide) rfl rfl))

/-- JavaScript's `v || d` defaulting on an optional numeric option: absent or
falsy (`0`) yields the default. -/
def jsOrDefault (v : Option Nat) (d : Nat) : Nat :=
  match v with
  | none => d
  | some 0 => d
  | some k => k

/-- The job record created by `MemoryTaskQueue.addTask`: status `pending`,
`attempts: 0`, `maxAttempts: options.maxAttempts || 3`. -/
def mkJob (id ty payload : String) (optMaxAttempts : Option Nat) : TaskJob :=
  ⟨id, ty, payload, JStatus.pending, 0, 0, jsOrDefault optMaxAttempts 3⟩

/-- Lifecycle of one scheduler job, following `processJob`: dequeue marks it
`processing` (progress 10); handler success marks it `completed`; on handler
failure `attempts` is incremented and the job becomes terminally `failed`
when the new count reaches `maxAttempts`, else goes back to `pending` for
retry; `cancelTask` cancels it only from `pending`. -/
inductive JobStep : TaskJob → TaskJob → Prop
  | start (j : TaskJob) : j.status = JStatus.pending →
      JobStep j { j with status := JStatus.processing, progress := 10 }
  | complete (j : TaskJob) : j.status = JStatus.processing →
      JobStep j { j with status := JStatus.completed, progress := 100 }
  | failTerminal (j : TaskJob) : j.status = JStatus.processing →
      j.maxAttempts ≤ j.attempts + 1 →
      JobStep j { j with status := JStatus.failed, attempts := j.attempts + 1 }
  | failRetry (j : TaskJob) : j.status = JStatus.processing →
      j.attempts + 1 < j.maxAttempts →
      JobStep j { j with status := JStatus.pending, attempts := j.attempts + 1,
                         progress := 0 }
  | cancel (j : TaskJob) : j.status = JStatus.pending →
      JobStep j { j with status := JStatus.cancelled }

/-- The per-job invariant: the attempt counter never passes `maxAttempts`,
and a job that can still run (pending or processing) is strictly below it. -/
def jobInv (j : TaskJob) : Prop :=
  j.attempts ≤ j.maxAttempts ∧
    ((j.status = JStatus.pending ∨ j.status = JStatus.processing) →
      j.attempts < j.maxAttempts)

theorem jsOrDefault_pos (v : Option Nat) : 1 ≤ jsOrDefault v 3 := by
  match v with
  | none => simp [jsOrDefault]
  | some 0 => simp [jsOrDefault]
  | some (k + 1) => simp [jsOrDefault]

theorem jobStep_preserves_inv (j j' : TaskJob) (h : JobStep j j') :
    jobInv j → jobInv j' := by
  intro ⟨hle, hlt⟩
  cases h with
  | start hst =>
    exact ⟨hle, fun _ => hlt (Or.inl hst)⟩
  | complete hst =>
    exact ⟨hle, by simp⟩
  | failTerminal hst hmax =>
    refine ⟨?_, by simp⟩
    have := hlt (Or.inr hst)
    simpa using this
  | failRetry hst hmax =>
    exact ⟨le_of_lt hmax, fun _ => hmax⟩
  | cancel hst =>
    exact ⟨hle, by simp⟩

/-- Claim C3: a job created by `addTask` starts at `attempts = 0`; in every
state reachable under the scheduler's lifecycle `attempts ≤ maxAttempts`
holds; a step can raise `attempts` only by one and only out of `processing`,
landing either terminally `failed` (when the new count has reached
`maxAttempts`) or back in `pending` for retry (only while the new count is
still strictly below `maxAttempts`). -/
theorem c3_attempts_bounded :
    (∀ id ty pl om, (mkJob id ty pl om).attempts = 0) ∧
    (∀ id ty pl om j,
        Relation.ReflTransGen JobStep (mkJob id ty pl om) j →
        j.attempts ≤ j.maxAttempts) ∧
    (∀ j j', JobStep j j' →
        j'.attempts = j.attempts ∨
          (j'.attempts = j.attempts + 1 ∧ j.status = JStatus.processing ∧
            ((j'.status = JStatus.failed ∧ j.maxAttempts ≤ j'.attempts) ∨
              (j'.status = JStatus.pending ∧ j'.attempts < j.maxAttempts)))) := by
  refine ⟨fun id ty pl om => rfl, ?_, ?_⟩
  · intro id ty pl om j h
    have hinv : jobInv j := by
      induction h with
      | refl =>
        refine ⟨by simp [mkJob], fun _ => ?_⟩
        simpa [mkJob] using jsOrDefault_pos om
      | tail hreach hstep ih => exact jobStep_preserves_inv _ _ hstep ih
    exact hinv.1
  · intro j j' hstep
    cases hstep with
    | start hst => exact Or.inl rfl
    | complete hst => exact Or.inl rfl
    | failTerminal hst hmax =>
      exact Or.inr ⟨rfl, hst, Or.inl ⟨rfl, hmax⟩⟩
    | failRetry hst hmax =>
      exact Or.inr ⟨rfl, hst, Or.inr ⟨rfl, hmax⟩⟩
    | cancel hst => exact Or.inl rfl

/-- Witness for C3: the job created by `addTask` with default options, after
being started, failed once (retry), restarted and failed again terminally
(`maxAttempts` defaulted to 3 is not exceeded). -/
theorem c3_witness :
    (TaskJob.mk "t" "article_save" "p" JStatus.processing 10 1 2).attempts ≤
      (TaskJob.mk "t" "article_save" "p" JStatus.processing 10 1 2).maxAttempts :=
  c3_attempts_bounded.2.1 "t" "article_save" "p" (some 2)
    ⟨"t", "article_save", "p", JStatus.processing, 10, 1, 2⟩
    (Relation.ReflTransGen.tail
      (Relation.ReflTransGen.tail
        (Relation.ReflTransGen.tail Relation.ReflTransGen.refl
          (JobStep.start (mkJob "t" "article_save" "p" (some 2)) rfl))
        (JobStep.failRetry
          { mkJob "t" "article_save" "p" (some 2) with
              status := JStatus.processing, progress := 10 } rfl (by decide)))
      (JobStep.start
        { mkJob "t" "article_save" "p" (some 2) with
            status := JStatus.pending, attempts := 1, progress := 0 } rfl))

/-- Outcome of the `catch` branch of `MemoryTaskQueue.processJob` for a job
whose handler just failed: the updated job record, whether the failure was
terminal, the computed retry delay, whether the job was scheduled for
re-enqueue, and the status written to the database by this branch. -/
structure FailHandling where
  job : TaskJob
  terminal : Bool
  delay : Nat
  reenqueued : Bool
  persistedStatus : JStatus
deriving DecidableEq, Repr

/-- Embedding of the failure path of `processJob`: `job.attempts++`; if the
new count has reached `maxAttempts`, mark terminally `failed` and persist;
otherwise reset to `pending`/progress 0, compute
`delay = Math.min(5000 * 2^attempts, 60000)`, skip re-enqueueing when a job
with the same `type` and stringified payload already sits in the queue, and
persist the `pending` state either way. -/
def processJobFailure (job : TaskJob) (queue : List TaskJob) : FailHandling :=
  let a := job.attempts + 1
  if job.maxAttempts ≤ a then
    ⟨{ job with attempts := a, status := JStatus.failed }, true, 0, false,
      JStatus.failed⟩
  else
    let retryJob :=
      { job with attempts := a, status := JStatus.pending, progress := 0 }
    let delay := min (5000 * 2 ^ a) 60000
    let dup := queue.any fun q =>
      q.jobType == job.jobType && q.payload == job.payload
    ⟨retryJob, false, delay, !dup, JStatus.pending⟩

/-- Claim C4: when a handler failure leaves the incremented attempt count
below `maxAttempts`, the retry delay is `min(5000·2^attempts, 60000)` ms with
the post-increment count as exponent; the retry is re-enqueued exactly when
no job with the same type and payload is already queued; and the `pending`
state is persisted in both cases. -/
theorem c4_retry_delay_and_dedup (job : TaskJob) (queue : List TaskJob)
    (h : job.attempts + 1 < job.maxAttempts) :
    (processJobFailure job queue).terminal = false ∧
    (processJobFailure job queue).delay
      = min (5000 * 2 ^ (job.attempts + 1)) 60000 ∧
    ((processJobFailure job queue).reenqueued = true ↔
      ¬ ∃ q ∈ queue, q.jobType = job.jobType ∧ q.payload = job.payload) ∧
    (processJobFailure job queue).persistedStatus = JStatus.pending ∧
    (processJobFailure job queue).job.status = JStatus.pending ∧
    (processJobFailure job queue).job.attempts = job.attempts + 1 := by
  have hne : ¬ job.maxAttempts ≤ job.attempts + 1 := not_le.mpr h
  refine ⟨by simp [processJobFailure, hne], by simp [processJobFailure, hne], ?_,
    by simp [processJobFailure, hne], by simp [processJobFailure, hne],
    by simp [processJobFailure, hne]⟩
  constructor
  · intro hre hex
    obtain ⟨q, hqmem, hqt, hqp⟩ := hex
    simp [processJobFailure, hne] at hre
    exact hre q hqmem hqt hqp
  · intro hnex
    simp [processJobFailure, hne]
    intro q hqmem hqt hqp
    exact hnex ⟨q, hqmem, hqt, hqp⟩

/-- Witness for C4: a first failure of `exJob` (attempts 0 → 1 < 3) against
an empty queue is re-enqueued with delay `min(5000·2, 60000) = 10000` ms. -/
theorem c4_witness :
    (processJobFailure exJob []).delay = 10000 ∧
    (processJobFailure exJob []).reenqueued = true := by
  have h := c4_retry_delay_and_dedup exJob [] (by decide)
  refine ⟨?_, h.2.2.1.mpr (by simp)⟩
  rw [h.2.1]
  decide

/-- Search step of `cancelTask`'s
`queue.findIndex(job => job.id === jobId && job.status === 'pending')`
followed by `splice`: the first matching job together with the queue left
after removing it, or `none` when no pending job carries the id. -/
def cancelFromQueue (queue : List TaskJob) (jobId : String) :
    Option (TaskJob × List TaskJob) :=
  match queue with
  | [] => none
  | j :: rest =>
    if j.id = jobId ∧ j.status = JStatus.pending then some (j, rest)
    else
      match cancelFromQueue rest jobId with
      | some (k, rest') => some (k, j :: rest')
      | none => none

/-- Result of `MemoryTaskQueue.cancelTask`: the returned boolean, the queue
and in-flight set afterwards, the job emitted with `jobCancelled` (already
marked `cancelled`), and whether a database update to `cancelled` was
issued. -/
structure CancelOutcome where
  ok : Bool
  queue : List TaskJob
  processing : List String
  cancelledJob : Option TaskJob
  persisted : Bool
deriving DecidableEq, Repr

/-- Embedding of `MemoryTaskQueue.cancelTask`: succeed exactly when a
pending job with the id sits in the queue, in which case it is spliced out,
marked `cancelled`, persisted and emitted; otherwise (in flight or unknown)
return `false` and touch nothing. -/
def cancelTask (st : QueueState) (jobId : String) : CancelOutcome :=
  match cancelFromQueue st.queue jobId with
  | some (j, rest) =>
      ⟨true, rest, st.processing, some { j with status := JStatus.cancelled },
        true⟩
  | none => ⟨false, st.queue, st.processing, none, false⟩

theorem cancelFromQueue_none_iff (queue : List TaskJob) (jobId : String) :
    cancelFromQueue queue jobId = none ↔
      ∀ j ∈ queue, ¬ (j.id = jobId ∧ j.status = JStatus.pending) := by
  induction queue with
  | nil => simp [cancelFromQueue]
  | cons j rest ih =>
    by_cases hj : j.id = jobId ∧ j.status = JStatus.pending
    · simp [cancelFromQueue, hj]
    · rw [cancelFromQueue, if_neg hj]
      cases hrec : cancelFromQueue rest jobId with
      | some p =>
        simp only [hrec] at ih ⊢
        constructor
        · intro hcontra
          cases hcontra
        · intro hall
          exact absurd (ih.mpr fun k hk => hall k (List.mem_cons_of_mem j hk))
            (by simp)
      | none =>
        simp only [hrec] at ih ⊢
        have hrest := ih.mp trivial
        constructor
        · intro _ k hk
          rcases List.mem_cons.mp hk with hk | hk
          · subst hk; exact hj
          · exact hrest k hk
        · intro _
          trivial

theorem cancelFromQueue_some (queue : List TaskJob) (jobId : String)
    (j : TaskJob) (rest : List TaskJob)
    (h : cancelFromQueue queue jobId = some (j, rest)) :
    ∃ q1 q2, queue = q1 ++ j :: q2 ∧ rest = q1 ++ q2 ∧
      j.id = jobId ∧ j.status = JStatus.pending := by
  induction queue generalizing rest with
  | nil => simp [cancelFromQueue] at h
  | cons k ktail ih =>
    by_cases hk : k.id = jobId ∧ k.status = JStatus.pending
    · rw [cancelFromQueue, if_pos hk] at h
      obtain ⟨h1, h2⟩ := Prod.mk.injEq .. ▸ Option.some.injEq .. ▸ h
      refine ⟨[], ktail, ?_⟩
      simp_all
    · rw [cancelFromQueue, if_neg hk] at h
      cases hrec : cancelFromQueue ktail jobId with
      | some p =>
        obtain ⟨j', rest'⟩ := p
        rw [hrec] at h
        simp only [Option.some.injEq, Prod.mk.injEq] at h
        obtain ⟨hj, hr⟩ := h
        obtain ⟨q1, q2, hq, hr', hid, hst⟩ := ih rest' (hj ▸ hrec)
        refine ⟨k :: q1, q2, ?_, ?_, hid, hst⟩
        · simp [hq]
        · simp [← hr, hr']
      | none => rw [hrec] at h; cases h

/-- Claim C6: `cancelTask` returns `true` exactly when a pending job with
the given id is still in the queue; on success that job is removed from the
queue, marked `cancelled`, persisted and emitted; on failure (job in flight,
terminal, or unknown) it returns `false` and leaves the queue, the in-flight
set and every job record untouched. -/
theorem c6_cancel_only_pending (st : QueueState) (jobId : String) :
    ((cancelTask st jobId).ok = true ↔
      ∃ j ∈ st.queue, j.id = jobId ∧ j.status = JStatus.pending) ∧
    ((cancelTask st jobId).ok = true →
      ∃ j q1 q2, st.queue = q1 ++ j :: q2 ∧ j.id = jobId ∧
        j.status = JStatus.pending ∧
        (cancelTask st jobId).queue = q1 ++ q2 ∧
        (cancelTask st jobId).cancelledJob
          = some { j with status := JStatus.cancelled } ∧
        (cancelTask st jobId).persisted = true) ∧
    ((cancelTask st jobId).ok = false →
      (cancelTask st jobId).queue = st.queue ∧
      (cancelTask st jobId).cancelledJob = none ∧
      (cancelTask st jobId).persisted = false) ∧
    (cancelTask st jobId).processing = st.processing := by
  cases hfind : cancelFromQueue st.queue jobId with
  | none =>
    have hall := (cancelFromQueue_none_iff st.queue jobId).mp hfind
    refine ⟨?_, ?_, ?_, ?_⟩
    · simp only [cancelTask, hfind]
      constructor
      · intro hcontra; cases hcontra
      · intro ⟨j, hmem, hid, hst⟩
        exact absurd ⟨hid, hst⟩ (hall j hmem)
    · intro hok
      simp [cancelTask, hfind] at hok
    · intro _
      simp [cancelTask, hfind]
    · simp [cancelTask, hfind]
  | some p =>
    obtain ⟨j, rest⟩ := p
    obtain ⟨q1, q2, hq, hr, hid, hst⟩ :=
      cancelFromQueue_some st.queue jobId j rest hfind
    refine ⟨?_, ?_, ?_, ?_⟩
    · simp only [cancelTask, hfind]
      exact ⟨fun _ => ⟨j, by simp [hq], hid, hst⟩, fun _ => by simp⟩
    · intro _
      exact ⟨j, q1, q2, hq, hid, hst, by simp [cancelTask, hfind, hr],
        by simp [cancelTask, hfind], by simp [cancelTask, hfind]⟩
    · intro hok
      simp [cancelTask, hfind] at hok
    · simp [cancelTask, hfind]

/-- Witness for C6: cancelling a completed job (only a completed record with
that id is around) fails and changes nothing, per the claim's terminal-job
scenario. -/
theorem c6_witness :
    (cancelTask ⟨[⟨"t9", "article_save", "p", JStatus.completed, 100, 0, 3⟩],
        [], 3⟩ "t9").ok = false := by
  have h := c6_cancel_only_pending
    ⟨[⟨"t9", "article_save", "p", JStatus.completed, 100, 0, 3⟩], [], 3⟩ "t9"
  cases hok : (cancelTask
      ⟨[⟨"t9", "article_save", "p", JStatus.completed, 100, 0, 3⟩], [], 3⟩
      "t9").ok
  · rfl
  · obtain ⟨j, hmem, hid, hst⟩ := h.1.mp hok
    simp at hmem
    rw [hmem] at hst
    cases hst

/-- The persisted task document's fields touched by `taskSchema.methods.cancel`
(`src/models/Task.ts`). -/
structure TaskRec where
  status : JStatus
  completedAt : Option Nat
deriving DecidableEq, Repr

/-- Embedding of `taskSchema.methods.cancel`: from `pending` or `processing`
the task becomes `cancelled` with `completedAt` set to the current time and
is saved; from any other status the method resolves with the task
unmodified. -/
def taskCancel (t : TaskRec) (now : Nat) : TaskRec :=
  if t.status = JStatus.pending ∨ t.status = JStatus.processing then
    { t with status := JStatus.cancelled, completedAt := some now }
  else t

/-- Claim C9: the persisted task model's `cancel` transitions to `cancelled`
(setting `completedAt`) from `pending` or `processing`, and from `completed`,
`failed` or `cancelled` it resolves without modifying the task — so at the
model level, unlike the scheduler's public `cancelTask`, an in-flight
(`processing`) task can be cancelled. -/
theorem c9_task_model_cancel (t : TaskRec) (now : Nat) :
    ((t.status = JStatus.pending ∨ t.status = JStatus.processing) →
      taskCancel t now
        = { t with status := JStatus.cancelled, completedAt := some now }) ∧
    (¬ (t.status = JStatus.pending ∨ t.status = JStatus.processing) →
      taskCancel t now = t) ∧
    (taskCancel { t with status := JStatus.processing } now).status
      = JStatus.cancelled := by
  refine ⟨fun h => by rw [taskCancel, if_pos h], fun h => by rw [taskCancel, if_neg h], ?_⟩
  simp [taskCancel]

/-- Witness for C9: a `processing` task is cancelled by the model method,
and a `completed` one is left unchanged. -/
theorem c9_witness :
    taskCancel ⟨JStatus.processing, none⟩ 7 = ⟨JStatus.cancelled, some 7⟩ ∧
    taskCancel ⟨JStatus.completed, some 3⟩ 7 = ⟨JStatus.completed, some 3⟩ :=
  ⟨(c9_task_model_cancel ⟨JStatus.processing, none⟩ 7).1 (Or.inr rfl),
    (c9_task_model_cancel ⟨JStatus.completed, some 3⟩ 7).2.1 (by simp)⟩

/-- Assignment `obj[k] = v` on a JavaScript object used as a string-keyed
map: an association list in insertion order where overwriting an existing
key keeps its position and a new key is appended. -/
def objInsert (acc : List (String × String)) (k v : String) :
    List (String × String) :=
  if acc.any fun p => p.1 == k then
    acc.map fun p => if p.1 == k then (k, v) else p
  else acc ++ [(k, v)]

/-- Property read `obj[k]` on the same object representation. -/
def objLookup : List (String × String) → String → Option String
  | [], _ => none
  | p :: rest, k => if p.1 = k then some p.2 else objLookup rest k

/-- The `headers.Cookie.split('; ').reduce(...)` step of
`mergeSetCookieToHeaders`: parse a cookie header into the object of
name/value pairs, skipping chunks without both a nonempty name and value. -/
def parseCookieHeader (s : String) : List (String × String) :=
  (s.splitOn "; ").foldl
    (fun acc cur =>
      match cur.splitOn "=" with
      | k :: v :: _ => if k ≠ "" ∧ v ≠ "" then objInsert acc k v else acc
      | _ => acc)
    []

/-- The `setCookie.forEach` body of `mergeSetCookieToHeaders`: take the
first `;`-separated chunk of one `Set-Cookie` line and store its `k=v` pair
when both parts are nonempty. -/
def addSetCookiePair (acc : List (String × String)) (cookieStr : String) :
    List (String × String) :=
  match cookieStr.splitOn ";" with
  | [] => acc
  | cookiePair :: _ =>
    if cookiePair = "" then acc
    else
      match cookiePair.splitOn "=" with
      | k :: v :: _ => if k ≠ "" ∧ v ≠ "" then objInsert acc k v else acc
      | _ => acc

/-- The response fields `fetchContent`'s negotiation control flow reads. -/
structure HttpResponse where
  status : Nat
  location : Option String
  setCookie : Option (List String)
deriving DecidableEq, Repr

/-- The outgoing header state the negotiation mutates: the cookie jar. -/
structure ReqHeaders where
  cookie : String
deriving DecidableEq, Repr

/-- Embedding of `CrawlerService.mergeSetCookieToHeaders`: without a
`set-cookie` response header the outgoing headers are untouched; otherwise
the existing cookie header (empty map when falsy) is parsed, every
`Set-Cookie` pair is merged — new values overriding same-named old ones —
and the object is serialized back into the `Cookie` header. -/
def mergeSetCookieToHeaders (resp : HttpResponse) (h : ReqHeaders) :
    ReqHeaders :=
  match resp.setCookie with
  | none => h
  | some cookies =>
    let existing := if h.cookie = "" then [] else parseCookieHeader h.cookie
    let merged := cookies.foldl addSetCookiePair existing
    ⟨String.intercalate "; " (merged.map fun p => p.1 ++ "=" ++ p.2)⟩

/-- Result of one `fetchContent` call in cookieMode `"new"`: the final
response, the headers after negotiation, and the number of GETs issued. -/
structure FetchResult where
  resp : HttpResponse
  headers : ReqHeaders
  requests : Nat
deriving DecidableEq, Repr

/-- Embedding of the cookieMode `"new"` negotiation in
`CrawlerService.fetchContent`: after the first GET produced `resp1`, the
request is reissued — once, with the response cookies merged into the
headers — exactly when `resp1.status === 302` and a `location` header is
present; `second` is the network's response to the reissued request. -/
def fetchContentNew (h : ReqHeaders) (resp1 : HttpResponse)
    (second : ReqHeaders → HttpResponse) : FetchResult :=
  if resp1.status = 302 ∧ resp1.location.isSome then
    let h2 := mergeSetCookieToHeaders resp1 h
    ⟨second h2, h2, 2⟩
  else ⟨resp1, h, 1⟩

theorem objLookup_map_overwrite (k v : String) :
    ∀ acc : List (String × String), (acc.any fun p => p.1 == k) = true →
    objLookup (acc.map fun p => if p.1 == k then (k, v) else p) k = some v := by
  intro acc
  induction acc with
  | nil => intro h; simp at h
  | cons p rest ih =>
    intro h
    by_cases hp : (p.1 == k) = true
    · simp [objLookup, hp]
    · simp only [List.any_cons, hp, Bool.false_or] at h
      have hne : ¬ p.1 = k := by simpa using hp
      rw [List.map_cons, if_neg hp, objLookup, if_neg hne]
      exact ih h

theorem objLookup_append_new (k v : String) :
    ∀ acc : List (String × String), (acc.any fun p => p.1 == k) = false →
    objLookup (acc ++ [(k, v)]) k = some v := by
  intro acc
  induction acc with
  | nil => intro _; simp [objLookup]
  | cons p rest ih =>
    intro h
    simp only [List.any_cons, Bool.or_eq_false_iff] at h
    have hne : ¬ p.1 = k := by simpa using h.1
    simp [objLookup, hne, ih h.2]

/-- Storing a cookie pair always makes the stored value the one readable at
its name: new values override same-named old ones. -/
theorem objInsert_lookup (acc : List (String × String)) (k v : String) :
    objLookup (objInsert acc k v) k = some v := by
  unfold objInsert
  by_cases hmem : (acc.any fun p => p.1 == k) = true
  · rw [if_pos hmem]
    exact objLookup_map_overwrite k v acc hmem
  · rw [if_neg hmem]
    refine objLookup_append_new k v acc ?_
    cases hval : (acc.any fun p => p.1 == k)
    · rfl
    · exact absurd hval hmem

/-- A 301 response that carries both a `Location` and a `Set-Cookie`. -/
def ex301 : HttpResponse := ⟨301, some "/redirected", some ["a=b"]⟩

/-- Empty outgoing headers used by the C5 counterexample. -/
def exHeaders : ReqHeaders := ⟨""⟩

/-- A network that would answer any reissued request with a plain 200. -/
def exSecond : ReqHeaders → HttpResponse := fun _ => ⟨200, none, none⟩

/-- Counterexample to claim C5 as stated: a `301` response carrying
`Set-Cookie` (and even a `Location`) is an HTTP redirect with cookies, yet
cookieMode `"new"` does not reissue the request — only one GET happens and
the 301 is returned as-is, because the negotiation branch tests
`status === 302`, not "any 3xx carrying Set-Cookie". -/
theorem c5_counterexample_301_not_retried :
    (300 ≤ ex301.status ∧ ex301.status < 400) ∧
    ex301.setCookie.isSome = true ∧
    (fetchContentNew exHeaders ex301 exSecond).requests = 1 ∧
    (fetchContentNew exHeaders ex301 exSecond).resp = ex301 := by
  refine ⟨by decide, rfl, ?_, ?_⟩ <;> rfl

/-- Claim C5 (amended): in cookieMode `"new"` the negotiation retry happens
exactly when the first response has status exactly 302 and carries a
`Location` header; in that case the request is reissued exactly once with
the headers produced by `mergeSetCookieToHeaders` (whose stores make new
cookie values override same-named old ones, `objInsert_lookup` being the
override law of its store operation); and in every case at most one
negotiation retry — at most two GETs — is performed. -/
theorem c5_new_mode_single_retry (h : ReqHeaders) (resp1 : HttpResponse)
    (second : ReqHeaders → HttpResponse) :
    ((fetchContentNew h resp1 second).requests = 2 ↔
      resp1.status = 302 ∧ resp1.location.isSome) ∧
    (fetchContentNew h resp1 second).requests ≤ 2 ∧
    (resp1.status = 302 → resp1.location.isSome →
      (fetchContentNew h resp1 second).headers = mergeSetCookieToHeaders resp1 h ∧
      (fetchContentNew h resp1 second).resp
        = second (mergeSetCookieToHeaders resp1 h)) ∧
    (∀ acc k v, objLookup (objInsert acc k v) k = some v) := by
  by_cases hc : resp1.status = 302 ∧ resp1.location.isSome
  · refine ⟨?_, ?_, ?_, fun acc k v => objInsert_lookup acc k v⟩ <;>
      simp [fetchContentNew, hc]
  · refine ⟨?_, ?_, ?_, fun acc k v => objInsert_lookup acc k v⟩
    · simp [fetchContentNew, hc]
    · simp [fetchContentNew, hc]
    · intro h302 hloc
      exact absurd ⟨h302, hloc⟩ hc

/-- Witness for C5: a 302 with a `Location` and a fresh cookie is reissued
once; the merged header carries the new cookie. -/
theorem c5_witness :
    (fetchContentNew exHeaders ⟨302, some "/", some ["a=b"]⟩ exSecond).requests
      = 2 :=
  (c5_new_mode_single_retry exHeaders ⟨302, some "/", some ["a=b"]⟩
    exSecond).1.mpr ⟨rfl, rfl⟩

/-- The crawl-outcome record the orchestrator returns as data (`CrawlResult`
in the source, restricted to the failure-classification fields). -/
structure CrawlResultM where
  success : Bool
  message : Option String
  statusCode : Option Nat
deriving DecidableEq, Repr

/-- Whether the second character list starts with the first one. -/
def leadMatch : List Char → List Char → Bool
  | [], _ => true
  | _ :: _, [] => false
  | c :: cs, d :: ds => c == d && leadMatch cs ds

/-- Whether the pattern occurs at the head of any suffix. -/
def containsAt (pat : List Char) : List Char → Bool
  | [] => leadMatch pat []
  | c :: rest => leadMatch pat (c :: rest) || containsAt pat rest

/-- JavaScript's `s.includes(pat)` substring test. -/
def strIncludes (s pat : String) : Bool := containsAt pat.toList s.toList

/-- The `response.status !== 200` ladder of `crawlArticle`
(`src/services/CrawlerService.ts`): 404, 403/451, 401 and the generic
non-200 case, each returned as failure data with the raw status code. -/
def articleStatusCheck (status : Nat) : Option CrawlResultM :=
  if status ≠ 200 then
    if status = 404 then
      some ⟨false, some "文章不存在或已被删除", some 404⟩
    else if status = 403 ∨ status = 451 then
      some ⟨false, some "访问被拒绝: 文章可能受权限保护", some status⟩
    else if status = 401 then
      some ⟨false, some "需要登录: 认证已过期", some 401⟩
    else
      some ⟨false, some ("HTTP错误: " ++ toString status), some status⟩
  else none

/-- The corresponding ladder of `crawlPaste`, identical in structure with
paste-specific messages. -/
def pasteStatusCheck (status : Nat) : Option CrawlResultM :=
  if status ≠ 200 then
    if status = 404 then
      some ⟨false, some "剪切板不存在或已被删除", some 404⟩
    else if status = 403 ∨ status = 451 then
      some ⟨false, some "访问被拒绝: 剪切板可能受权限保护", some status⟩
    else if status = 401 then
      some ⟨false, some "需要登录: 认证已过期", some 401⟩
    else
      some ⟨false, some ("HTTP错误: " ++ toString status), some status⟩
  else none

/-- The response-classification front of `crawlArticle`: a 3xx with a
`location` is classified as login-required or unexpected redirect; any other
status goes through the non-200 ladder; `none` means "proceed to parsing". -/
def crawlArticleClassify (status : Nat) (location : Option String) :
    Option CrawlResultM :=
  if 300 ≤ status ∧ status < 400 then
    match location with
    | some loc =>
      if strIncludes loc "auth/login" || strIncludes loc "login" then
        some ⟨false, some "需要登录: 文章需要登录才能访问", some status⟩
      else
        some ⟨false, some ("HTTP重定向: " ++ toString status ++ " -> " ++ loc),
          some status⟩
    | none => articleStatusCheck status
  else articleStatusCheck status

/-- The response-classification front of `crawlPaste`, same structure. -/
def crawlPasteClassify (status : Nat) (location : Option String) :
    Option CrawlResultM :=
  if 300 ≤ status ∧ status < 400 then
    match location with
    | some loc =>
      if strIncludes loc "auth/login" || strIncludes loc "login" then
        some ⟨false, some "需要登录: 剪切板需要登录才能访问", some status⟩
      else
        some ⟨false, some ("HTTP重定向: " ++ toString status ++ " -> " ++ loc),
          some status⟩
    | none => pasteStatusCheck status
  else pasteStatusCheck status

/-- Claim C8: for every non-200, non-redirect status, both crawl operations
return a classified failure as data — `success = false`, a human-readable
message and the raw status code — with 404 mapped to not-found, 403/451 to
blocked, 401 to auth-expired and anything else to a generic HTTP error
carrying the raw code. -/
theorem c8_non200_classified_as_data (status : Nat) (location : Option String)
    (hred : ¬ (300 ≤ status ∧ status < 400)) (h200 : status ≠ 200) :
    (∃ r, crawlArticleClassify status location = some r ∧
      r.success = false ∧ r.statusCode = some status ∧ r.message.isSome) ∧
    (∃ r, crawlPasteClassify status location = some r ∧
      r.success = false ∧ r.statusCode = some status ∧ r.message.isSome) ∧
    (status = 404 →
      crawlArticleClassify status location
        = some ⟨false, some "文章不存在或已被删除", some 404⟩ ∧
      crawlPasteClassify status location
        = some ⟨false, some "剪切板不存在或已被删除", some 404⟩) ∧
    (status = 403 ∨ status = 451 →
      crawlArticleClassify status location
        = some ⟨false, some "访问被拒绝: 文章可能受权限保护", some status⟩ ∧
      crawlPasteClassify status location
        = some ⟨false, some "访问被拒绝: 剪切板可能受权限保护", some status⟩) ∧
    (status = 401 →
      crawlArticleClassify status location
        = some ⟨false, some "需要登录: 认证已过期", some 401⟩ ∧
      crawlPasteClassify status location
        = some ⟨false, some "需要登录: 认证已过期", some 401⟩) ∧
    (status ≠ 404 → ¬ (status = 403 ∨ status = 451) → status ≠ 401 →
      crawlArticleClassify status location
        = some ⟨false, some ("HTTP错误: " ++ toString status), some status⟩ ∧
      crawlPasteClassify status location
        = some ⟨false, some ("HTTP错误: " ++ toString status), some status⟩) := by
  have hart : crawlArticleClassify status location = articleStatusCheck status := by
    rw [crawlArticleClassify.eq_def, if_neg hred]
  have hpst : crawlPasteClassify status location = pasteStatusCheck status := by
    rw [crawlPasteClassify.eq_def, if_neg hred]
  rw [hart, hpst]
  by_cases h404 : status = 404
  · subst h404
    refine ⟨⟨⟨false, some "文章不存在或已被删除", some 404⟩, ?_, rfl, rfl, rfl⟩,
      ⟨⟨false, some "剪切板不存在或已被删除", some 404⟩, ?_, rfl, rfl, rfl⟩,
      fun _ => ⟨?_, ?_⟩,
      fun hc => absurd hc (by decide),
      fun hc => absurd hc (by decide),
      fun hc _ _ => absurd rfl hc⟩ <;>
      simp [articleStatusCheck, pasteStatusCheck]
  · by_cases hblk : status = 403 ∨ status = 451
    · have hartEq : articleStatusCheck status
          = some ⟨false, some "访问被拒绝: 文章可能受权限保护", some status⟩ := by
        simp [articleStatusCheck, h200, h404, hblk]
      have hpstEq : pasteStatusCheck status
          = some ⟨false, some "访问被拒绝: 剪切板可能受权限保护", some status⟩ := by
        simp [pasteStatusCheck, h200, h404, hblk]
      refine ⟨⟨_, hartEq, rfl, rfl, rfl⟩, ⟨_, hpstEq, rfl, rfl, rfl⟩,
        fun hc => absurd hc h404,
        fun _ => ⟨hartEq, hpstEq⟩,
        fun hc => ?_,
        fun _ hc => absurd hblk hc⟩
      rcases hblk with h | h <;> (subst h; exact absurd hc (by decide))
    · by_cases h401 : status = 401
      · subst h401
        have hartEq : articleStatusCheck 401
            = some ⟨false, some "需要登录: 认证已过期", some 401⟩ := by
          simp [articleStatusCheck, hblk]
        have hpstEq : pasteStatusCheck 401
            = some ⟨false, some "需要登录: 认证已过期", some 401⟩ := by
          simp [pasteStatusCheck, hblk]
        exact ⟨⟨_, hartEq, rfl, rfl, rfl⟩, ⟨_, hpstEq, rfl, rfl, rfl⟩,
          fun hc => absurd hc h404,
          fun hc => absurd hc hblk,
          fun _ => ⟨hartEq, hpstEq⟩,
          fun _ _ hc => absurd rfl hc⟩
      · have hartEq : articleStatusCheck status
            = some ⟨false, some ("HTTP错误: " ++ toString status), some status⟩ := by
          simp [articleStatusCheck, h200, h404, hblk, h401]
        have hpstEq : pasteStatusCheck status
            = some ⟨false, some ("HTTP错误: " ++ toString status), some status⟩ := by
          simp [pasteStatusCheck, h200, h404, hblk, h401]
        exact ⟨⟨_, hartEq, rfl, rfl, rfl⟩, ⟨_, hpstEq, rfl, rfl, rfl⟩,
          fun hc => absurd hc h404,
          fun hc => absurd hc hblk,
          fun hc => absurd hc h401,
          fun _ _ _ => ⟨hartEq, hpstEq⟩⟩

/-- Witness for C8 at status 500 (no redirect): both crawls classify it as a
generic HTTP error carrying the raw code, returned as data. -/
theorem c8_witness :
    crawlArticleClassify 500 none
      = some ⟨false, some ("HTTP错误: " ++ toString 500), some 500⟩ :=
  ((c8_non200_classified_as_data 500 none (by decide) (by decide)).2.2.2.2.2
    (by decide) (by decide) (by decide)).1

/-- The outcome fields of one `crawlArticle` attempt that
`saveArticleDirectly`'s loop inspects. -/
structure AttemptOutcome where
  success : Bool
  statusCode : Option Nat
  message : String
deriving DecidableEq, Repr

/-- Observable result of `saveArticleDirectly`: success flag, returned
message, cumulative enforced 451-backoff delay in ms (the deterministic
`attempt × 5000` waits; the random jitter before each attempt only adds to
it), and the number of crawl attempts performed. -/
structure DirectSaveResult where
  success : Bool
  message : String
  delayMs : Nat
  attemptsUsed : Nat
deriving DecidableEq, Repr

/-- `crawlResult.message || '爬取失败'` with an absent message modelled as
the empty (falsy) string. -/
def msgOrDefault (r : AttemptOutcome) : String :=
  if r.message = "" then "爬取失败" else r.message

/-- The `for (attempt = 1; attempt <= maxRetries; attempt++)` loop of
`saveArticleDirectly`, with `fuel` the remaining iterations: a successful
crawl stores the article and returns success (the DB-dependent choice of
update-vs-create message is abstracted to the create message); a 451 outcome
records the failure as `lastError`, waits `attempt * 5000` ms and continues;
any other failure outcome returns at once; falling off the loop returns the
recorded last error (an always-truthy `Error` object in the source, whose
message is the last failure's message) or `'保存失败'` when none. -/
def saveGo (outcomes : Nat → AttemptOutcome) :
    Nat → Nat → Option String → Nat → DirectSaveResult
  | 0, attempt, lastError, acc =>
    ⟨false, lastError.getD "保存失败", acc, attempt - 1⟩
  | f + 1, attempt, _lastError, acc =>
    let r := outcomes attempt
    if r.success then ⟨true, "文章保存成功", acc, attempt⟩
    else if r.statusCode = some 451 then
      saveGo outcomes f (attempt + 1) (some r.message) (acc + attempt * 5000)
    else ⟨false, msgOrDefault r, acc, attempt⟩

/-- Embedding of `CrawlerService.saveArticleDirectly` over an explicit
sequence of per-attempt crawl outcomes (`outcomes i` is what attempt `i`'s
`crawlArticle` returns). -/
def saveArticleDirectly (outcomes : Nat → AttemptOutcome)
    (maxRetries : Nat) : DirectSaveResult :=
  saveGo outcomes maxRetries 1 none 0

/-- `Σ_{i=attempt}^{attempt+j-1} i * 5000`: the enforced backoff of `j`
consecutive 451 outcomes starting at attempt number `attempt`. -/
def sumDelay (attempt : Nat) : Nat → Nat
  | 0 => 0
  | j + 1 => attempt * 5000 + sumDelay (attempt + 1) j

/-- The `lastError` value after `j` consecutive 451 failures starting at
attempt number `attempt`. -/
def lastErrAfter (outcomes : Nat → AttemptOutcome) (attempt : Nat) :
    Nat → Option String → Option String
  | 0, le => le
  | j + 1, _ =>
    lastErrAfter outcomes (attempt + 1) j (some (outcomes attempt).message)

theorem lastErrAfter_last (outcomes : Nat → AttemptOutcome) :
    ∀ (j attempt : Nat) (le : Option String), 1 ≤ j →
      lastErrAfter outcomes attempt j le
        = some ((outcomes (attempt + j - 1)).message) := by
  intro j
  induction j with
  | zero => intro attempt le h; omega
  | succ j ih =>
    intro attempt le h
    match j, ih with
    | 0, _ => simp [lastErrAfter]
    | j' + 1, ih =>
      have heq : lastErrAfter outcomes attempt (j' + 1 + 1) le
          = lastErrAfter outcomes (attempt + 1) (j' + 1)
              (some ((outcomes attempt).message)) := rfl
      rw [heq, ih (attempt + 1) (some ((outcomes attempt).message)) (by omega)]
      have e : attempt + 1 + (j' + 1) - 1 = attempt + (j' + 1 + 1) - 1 := by omega
      rw [e]

/-- Running the loop through `j` consecutive 451 failures consumes `j` fuel,
advances the attempt counter, tracks the last error and accumulates the
`attempt * 5000` waits. -/
theorem saveGo_451_run (outcomes : Nat → AttemptOutcome) :
    ∀ (j fuel attempt : Nat) (le : Option String) (acc : Nat),
      j ≤ fuel →
      (∀ i, i < j → (outcomes (attempt + i)).success = false ∧
        (outcomes (attempt + i)).statusCode = some 451) →
      saveGo outcomes fuel attempt le acc
        = saveGo outcomes (fuel - j) (attempt + j)
            (lastErrAfter outcomes attempt j le) (acc + sumDelay attempt j) := by
  intro j
  induction j with
  | zero =>
    intro fuel attempt le acc _ _
    simp [lastErrAfter, sumDelay]
  | succ j ih =>
    intro fuel attempt le acc hle h451
    match fuel with
    | 0 => omega
    | f + 1 =>
      have h0 : (outcomes attempt).success = false ∧
          (outcomes attempt).statusCode = some 451 := by
        simpa using h451 0 (by omega)
      have hstep : saveGo outcomes (f + 1) attempt le acc
          = saveGo outcomes f (attempt + 1) (some (outcomes attempt).message)
              (acc + attempt * 5000) := by
        simp only [saveGo, h0.1, h0.2]
        simp
      rw [hstep]
      rw [ih f (attempt + 1) (some (outcomes attempt).message)
        (acc + attempt * 5000) (by omega) ?_]
      · have e1 : f + 1 - (j + 1) = f - j := by omega
        have e2 : attempt + (j + 1) = attempt + 1 + j := by omega
        have e3 : acc + sumDelay attempt (j + 1)
            = acc + attempt * 5000 + sumDelay (attempt + 1) j := by
          show acc + (attempt * 5000 + sumDelay (attempt + 1) j) = _
          omega
        rw [e1, e2, e3]
        rfl
      · intro i hi
        have e : attempt + 1 + i = attempt + (i + 1) := by omega
        rw [e]
        exact h451 (i + 1) (by omega)

/-- Claim C7: with `outcomes i` the result of attempt `i`'s crawl and the
first `k` attempts all `Blocked` (HTTP 451): exhausting all `maxRetries ≤ k`
attempts under 451 returns failure with the last failure's message after the
full enforced backoff `Σ_{a=1}^{maxRetries} a·5000` ms; a success at attempt
`k+1 ≤ maxRetries` makes the call succeed on that attempt with cumulative
enforced delay `Σ_{a=1}^{k} a·5000` ms (for `k = 2` that is
`1×5s + 2×5s = 15s`); and a non-451 failure at attempt `k+1 ≤ maxRetries`
returns immediately on that attempt without using the remaining ones. -/
theorem c7_direct_save_retry_policy (outcomes : Nat → AttemptOutcome)
    (maxRetries k : Nat)
    (h451 : ∀ i, i < k → (outcomes (i + 1)).success = false ∧
      (outcomes (i + 1)).statusCode = some 451) :
    (1 ≤ maxRetries → maxRetries ≤ k →
      saveArticleDirectly outcomes maxRetries
        = ⟨false, (outcomes maxRetries).message, sumDelay 1 maxRetries,
            maxRetries⟩) ∧
    (k < maxRetries → (outcomes (k + 1)).success = true →
      saveArticleDirectly outcomes maxRetries
        = ⟨true, "文章保存成功", sumDelay 1 k, k + 1⟩) ∧
    (k < maxRetries → (outcomes (k + 1)).success = false →
      (outcomes (k + 1)).statusCode ≠ some 451 →
      saveArticleDirectly outcomes maxRetries
        = ⟨false, msgOrDefault (outcomes (k + 1)), sumDelay 1 k, k + 1⟩) := by
  have hshift : ∀ m, m ≤ k → ∀ i, i < m →
      (outcomes (1 + i)).success = false ∧
      (outcomes (1 + i)).statusCode = some 451 := by
    intro m hm i hi
    have e : 1 + i = i + 1 := by omega
    rw [e]
    exact h451 i (by omega)
  refine ⟨?_, ?_, ?_⟩
  · intro h1 hk
    unfold saveArticleDirectly
    rw [saveGo_451_run outcomes maxRetries maxRetries 1 none 0 le_rfl
      (hshift maxRetries hk)]
    simp only [Nat.sub_self, saveGo]
    rw [lastErrAfter_last outcomes maxRetries 1 none h1]
    have e1 : 1 + maxRetries - 1 = maxRetries := by omega
    have e2 : 0 + sumDelay 1 maxRetries = sumDelay 1 maxRetries := by omega
    rw [e1, e2]
    rfl
  · intro hk hsucc
    unfold saveArticleDirectly
    rw [saveGo_451_run outcomes k maxRetries 1 none 0 (by omega)
      (hshift k le_rfl)]
    obtain ⟨m, hm⟩ : ∃ m, maxRetries - k = m + 1 := ⟨maxRetries - k - 1, by omega⟩
    rw [hm]
    have e : 1 + k = k + 1 := by omega
    rw [e]
    simp only [saveGo, hsucc]
    have e2 : 0 + sumDelay 1 k = sumDelay 1 k := by omega
    rw [e2]
    simp
  · intro hk hfail hn451
    unfold saveArticleDirectly
    rw [saveGo_451_run outcomes k maxRetries 1 none 0 (by omega)
      (hshift k le_rfl)]
    obtain ⟨m, hm⟩ : ∃ m, maxRetries - k = m + 1 := ⟨maxRetries - k - 1, by omega⟩
    rw [hm]
    have e : 1 + k = k + 1 := by omega
    rw [e]
    simp only [saveGo, hfail, hn451]
    have e2 : 0 + sumDelay 1 k = sumDelay 1 k := by omega
    rw [e2]
    simp [hn451]

/-- The claim's backoff scenario: 451 on attempts 1 and 2, then a clean
success on attempt 3. -/
def exOutcomes : Nat → AttemptOutcome := fun i =>
  if i ≤ 2 then ⟨false, some 451, "访问被拒绝: 文章可能受权限保护"⟩
  else ⟨true, none, ""⟩

/-- Witness for C7: under `exOutcomes` with `maxRetries = 3` the direct save
succeeds on the 3rd attempt with enforced delay `1×5000 + 2×5000 = 15000` ms. -/
theorem c7_witness :
    saveArticleDirectly exOutcomes 3 = ⟨true, "文章保存成功", 15000, 3⟩ ∧
    1 * 5000 + 2 * 5000 ≤ 15000 := by
  have h := (c7_direct_save_retry_policy exOutcomes 3 2 (by decide)).2.1
    (by decide) (by decide)
  refine ⟨?_, by norm_num⟩
  rw [h]
  decide
